import Mathlib

/-!
Shallow embedding of the marching-squares contour utilities
(src/modules/layers/src/contour-layer/marching-squares.js) and proofs of the
specification claims about them.

JS numbers are modelled by `JSNum` (a finite rational, NaN, or an infinity);
grid samples are finite rationals.  A JS value passed as a threshold is
modelled by `Threshold` (a number, an array of numbers, or some other
non-number non-array value).  Failed `assert` calls are modelled by an
`Except MSError` result, with one error constructor per distinct assert site,
following the error taxonomy of the spec.
-/

/-- Model of a JS number: either a finite value (as a rational), NaN, or an
infinity. -/
inductive JSNum where
  | finite (q : ℚ)
  | nan
  | posInf
  | negInf
deriving DecidableEq, Repr

/-- Number.isFinite for a JS number. -/
def JSNum.isFiniteNum : JSNum → Bool
  | .finite _ => true
  | _ => false

/-- JS comparison w < v where w is a finite number and v any JS number
(false when v is NaN). -/
def jsLt (w : ℚ) : JSNum → Bool
  | .finite q => decide (w < q)
  | .nan => false
  | .posInf => true
  | .negInf => false

/-- JS comparison w >= v where w is a finite number and v any JS number
(false when v is NaN). -/
def jsGe (w : ℚ) : JSNum → Bool
  | .finite q => decide (q ≤ w)
  | .nan => false
  | .posInf => false
  | .negInf => true

/-- JS truthiness of a number: 0 and NaN are falsy, everything else truthy. -/
def jsTruthy : JSNum → Bool
  | .finite q => decide (q ≠ 0)
  | .nan => false
  | .posInf => true
  | .negInf => true

/-- Model of the JS value supplied as a threshold: a number, an array of
numbers, or any other JS value (neither a number nor an array). -/
inductive Threshold where
  | num (v : JSNum)
  | arr (xs : List JSNum)
  | undef
deriving DecidableEq, Repr

/-- Number.isFinite applied to the threshold value. -/
def Threshold.isFiniteScalar : Threshold → Bool
  | .num v => v.isFiniteNum
  | _ => false

/-- Array.isArray applied to the threshold value. -/
def Threshold.isArr : Threshold → Bool
  | .arr _ => true
  | _ => false

/-- Length of the threshold when it is an array (0 otherwise). -/
def Threshold.len : Threshold → ℕ
  | .arr xs => xs.length
  | _ => 0

/-- The condition of the assert in getVertexCode (source line 23):
Number.isFinite(threshold) or (Array.isArray(threshold) and
threshold.length > 1). -/
def thresholdAssertOk (t : Threshold) : Bool :=
  t.isFiniteScalar || (t.isArr && decide (1 < t.len))

/-- Spec-side validity of a threshold: a finite scalar, or a strictly
ascending 2-element range of finite numbers. -/
def specValidThreshold : Threshold → Bool
  | .num (.finite _) => true
  | .arr [.finite lo, .finite hi] => decide (lo < hi)
  | _ => false

/-- Error taxonomy for the assert sites of the source, following the spec. -/
inductive MSError where
  | invalidThreshold
  | outOfRange
  | negativeCode
  | nonFiniteWeights
  | unsupportedType
  | unmappedCode
deriving DecidableEq, Repr

/-- Result record of getCode: the packed configuration code and the mean
code. -/
structure CodeResult where
  code : ℕ
  meanCode : ℕ
deriving DecidableEq, Repr

instance {ε α : Type} [DecidableEq ε] [DecidableEq α] : DecidableEq (Except ε α)
  | .error e1, .error e2 =>
      if h : e1 = e2 then .isTrue (by rw [h])
      else .isFalse (by intro c; cases c; exact h rfl)
  | .error _, .ok _ => .isFalse (by intro c; cases c)
  | .ok _, .error _ => .isFalse (by intro c; cases c)
  | .ok a1, .ok a2 =>
      if h : a1 = a2 then .isTrue (by rw [h])
      else .isFalse (by intro c; cases c; exact h rfl)

/-- Pure body of getVertexCode (source lines 26-33), after the threshold
assert has passed: for an array threshold the classes are 0 (below
threshold[0]), 1 (below threshold[1]) or 2; for a scalar threshold the
classes are 1 (at or above) or 0 (below). -/
def vertexCode (weight : ℚ) (threshold : Threshold) : ℕ :=
  match threshold with
  | .arr xs =>
      if jsLt weight (xs.getD 0 .nan) then 0
      else if jsLt weight (xs.getD 1 .nan) then 1
      else 2
  | .num v => if jsGe weight v then 1 else 0
  | .undef => 0

/-- getVertexCode (source lines 21-34): assert the threshold shape, then
classify the weight. -/
def getVertexCode (weight : ℚ) (threshold : Threshold) : Except MSError ℕ :=
  if thresholdAssertOk threshold then .ok (vertexCode weight threshold)
  else .error .invalidThreshold

/-- One corner step of getCode: a forced boundary corner gets weight
undefined and class 0 without classification; an interior corner reads its
sample and classifies it (source lines 62-92, one of the four corner
blocks). -/
def cornerStep (forced : Bool) (w : ℚ) (threshold : Threshold) :
    Except MSError (Option ℚ × ℕ) :=
  if forced then .ok (none, 0)
  else
    match getVertexCode w threshold with
    | .error e => .error e
    | .ok c => .ok (some w, c)

/-- getCode after the legacy thresholdValue aliasing has been resolved
(source lines 50-120): range asserts, the four corner steps, the packed
code, and the mean code. -/
def getCodeImpl (cellWeights : ℤ → ℚ) (x y width height : ℤ)
    (threshold : Threshold) : Except MSError CodeResult :=
  if ¬(-1 ≤ x ∧ x < width) then .error .outOfRange
  else if ¬(-1 ≤ y ∧ y < height) then .error .outOfRange
  else
    let isLeftBoundary : Bool := decide (x < 0)
    let isRightBoundary : Bool := decide (width - 1 ≤ x)
    let isBottomBoundary : Bool := decide (y < 0)
    let isTopBoundary : Bool := decide (height - 1 ≤ y)
    let isBoundary : Bool :=
      isLeftBoundary || isRightBoundary || isBottomBoundary || isTopBoundary
    match cornerStep (isLeftBoundary || isTopBoundary)
        (cellWeights ((y + 1) * width + x)) threshold with
    | .error e => .error e
    | .ok top =>
    match cornerStep (isRightBoundary || isTopBoundary)
        (cellWeights ((y + 1) * width + x + 1)) threshold with
    | .error e => .error e
    | .ok topRight =>
    match cornerStep (isRightBoundary || isBottomBoundary)
        (cellWeights (y * width + x + 1)) threshold with
    | .error e => .error e
    | .ok right =>
    match cornerStep (isLeftBoundary || isBottomBoundary)
        (cellWeights (y * width + x)) threshold with
    | .error e => .error e
    | .ok current =>
    let codeStep : Except MSError ℕ :=
      if threshold.isFiniteScalar then
        .ok ((top.2 <<< 3) ||| (topRight.2 <<< 2) ||| (right.2 <<< 1) ||| current.2)
      else if threshold.isArr then
        .ok ((top.2 <<< 6) ||| (topRight.2 <<< 4) ||| (right.2 <<< 2) ||| current.2)
      else .error .negativeCode
    match codeStep with
    | .error e => .error e
    | .ok code =>
    let meanStep : Except MSError ℕ :=
      if !isBoundary then
        match top.1, topRight.1, right.1, current.1 with
        | some wTop, some wTopRight, some wRight, some wCurrent =>
            getVertexCode ((wTop + wTopRight + wRight + wCurrent) / 4) threshold
        | _, _, _, _ => .error .nonFiniteWeights
      else .ok 0
    match meanStep with
    | .error e => .error e
    | .ok meanCode => .ok { code := code, meanCode := meanCode }

/-- Options record of getCode (source line 43-44). -/
structure GetCodeOpts where
  cellWeights : ℤ → ℚ
  x : ℤ
  y : ℤ
  width : ℤ
  height : ℤ
  threshold : Threshold := .undef
  thresholdValue : Option JSNum := none

/-- Legacy aliasing of getCode (source lines 44-48): a truthy thresholdValue
replaces the threshold option. -/
def effectiveThreshold (o : GetCodeOpts) : Threshold :=
  match o.thresholdValue with
  | some v => if jsTruthy v then .num v else o.threshold
  | none => o.threshold

/-- getCode (source lines 38-121). -/
def getCode (o : GetCodeOpts) : Except MSError CodeResult :=
  getCodeImpl o.cellWeights o.x o.y o.width o.height (effectiveThreshold o)

/-- Boundary flag of the top corner (forced to class 0 exactly when
isLeftBoundary or isTopBoundary holds, source line 63). -/
def forcedTop (x y width height : ℤ) : Bool :=
  decide (x < 0) || decide (height - 1 ≤ y)

/-- Boundary flag of the top-right corner (source line 71). -/
def forcedTopRight (x y width height : ℤ) : Bool :=
  decide (width - 1 ≤ x) || decide (height - 1 ≤ y)

/-- Boundary flag of the right corner (source line 79). -/
def forcedRight (x y width height : ℤ) : Bool :=
  decide (width - 1 ≤ x) || decide (y < 0)

/-- Boundary flag of the current corner (source line 87). -/
def forcedCurrent (x y width height : ℤ) : Bool :=
  decide (x < 0) || decide (y < 0)

/-- The isBoundary flag of getCode (source line 57). -/
def cellIsBoundary (x y width height : ℤ) : Bool :=
  decide (x < 0) || decide (width - 1 ≤ x) || decide (y < 0) ||
    decide (height - 1 ≤ y)

/-- Class of the top corner as getCode computes it. -/
def classTop (cw : ℤ → ℚ) (x y width height : ℤ) (t : Threshold) : ℕ :=
  if forcedTop x y width height then 0
  else vertexCode (cw ((y + 1) * width + x)) t

/-- Class of the top-right corner as getCode computes it. -/
def classTopRight (cw : ℤ → ℚ) (x y width height : ℤ) (t : Threshold) : ℕ :=
  if forcedTopRight x y width height then 0
  else vertexCode (cw ((y + 1) * width + x + 1)) t

/-- Class of the right corner as getCode computes it. -/
def classRight (cw : ℤ → ℚ) (x y width height : ℤ) (t : Threshold) : ℕ :=
  if forcedRight x y width height then 0
  else vertexCode (cw (y * width + x + 1)) t

/-- Class of the current corner as getCode computes it. -/
def classCurrent (cw : ℤ → ℚ) (x y width height : ℤ) (t : Threshold) : ℕ :=
  if forcedCurrent x y width height then 0
  else vertexCode (cw (y * width + x)) t

/-- Packing of the four corner classes (source lines 94-101): 4-bit packing
for a scalar threshold, 2-bit-per-corner packing for an array threshold. -/
def packCode (t : Threshold) (top topRight right current : ℕ) : ℕ :=
  if t.isFiniteScalar then
    (top <<< 3) ||| (topRight <<< 2) ||| (right <<< 1) ||| current
  else
    (top <<< 6) ||| (topRight <<< 4) ||| (right <<< 2) ||| current

/-- Mean code as getCode computes it (source lines 104-119): the class of
the average of the four corner samples on interior cells, the placeholder 0
on boundary cells. -/
def cellMeanCode (cw : ℤ → ℚ) (x y width height : ℤ) (t : Threshold) : ℕ :=
  if cellIsBoundary x y width height then 0
  else
    vertexCode ((cw ((y + 1) * width + x) + cw ((y + 1) * width + x + 1) +
      cw (y * width + x + 1) + cw (y * width + x)) / 4) t

/-- The CONTOUR_TYPE enumeration object (source lines 7-10). -/
structure ContourTypeEnum where
  ISO_LINES : ℕ
  ISO_BANDS : ℕ

/-- CONTOUR_TYPE constant (source lines 7-10). -/
def CONTOUR_TYPE : ContourTypeEnum := { ISO_LINES := 1, ISO_BANDS := 2 }

/-- Z_OFFSET constant (source line 12), the JS literal 0.002 modelled as the
rational it denotes. -/
def Z_OFFSET : ℚ := 2 / 1000

/-- Per-call layer-depth data of getVertices; both fields are optional, as a
JS caller may supply any subset (source lines 14-17, 128). -/
structure ThresholdData where
  zIndex : Option ℚ := none
  zOffsetScale : Option ℚ := none

/-- Options record of getVertices (source line 127). -/
structure GetVerticesOpts where
  gridOrigin : ℚ × ℚ
  cellSize : ℚ × ℚ
  x : ℤ
  y : ℤ
  code : ℕ
  meanCode : ℕ
  type : Option ℕ := none
  thresholdData : Option ThresholdData := none

/-- Merged zIndex after Object.assign with DEFAULT_THRESHOLD_DATA (source
lines 14-17 and 128): a supplied zIndex overrides the default 0. -/
def mergedZIndex (o : GetVerticesOpts) : ℚ :=
  match o.thresholdData with
  | some td => td.zIndex.getD 0
  | none => 0

/-- Merged zOffsetScale after Object.assign with DEFAULT_THRESHOLD_DATA
(source lines 14-17 and 128): a supplied zOffsetScale overrides the
default 1. -/
def mergedZOffsetScale (o : GetVerticesOpts) : ℚ :=
  match o.thresholdData with
  | some td => td.zOffsetScale.getD 1
  | none => 1

/-- Modelled from the spec: one entry of a code-offset table.  The tables
themselves (ISOLINES_CODE_OFFSET_MAP and ISOBANDS_CODE_OFFSET_MAP, imported
from the module marching-squares-codes) are not part of the provided source;
per the spec asset contract an entry is either a list of geometry templates
in fractional cell-local coordinates, or, for saddle codes, a map keyed by
meanCode whose values are lists of templates. -/
inductive OffsetEntry where
  | templates (ts : List (List (ℚ × ℚ)))
  | saddle (m : ℕ → Option (List (List (ℚ × ℚ))))

/-- Modelled from the spec: a code-offset table maps an integer
configuration code to an entry, or to nothing (an unmapped code, a
build-time defect per the spec).  getVertices receives the two tables as
parameters in place of the missing import. -/
def OffsetMap : Type := ℕ → Option OffsetEntry

/-- Offset selection of getVertices (source lines 129-148): the switch on
the contour type, the table lookup with its assert, and the saddle
resolution keyed by meanCode with its assert. -/
def resolveOffsets (isolinesMap isobandsMap : OffsetMap)
    (o : GetVerticesOpts) : Except MSError (List (List (ℚ × ℚ))) :=
  let type := o.type.getD CONTOUR_TYPE.ISO_LINES
  let lookupStep : Except MSError (Option OffsetEntry) :=
    if type = CONTOUR_TYPE.ISO_LINES then .ok (isolinesMap o.code)
    else if type = CONTOUR_TYPE.ISO_BANDS then .ok (isobandsMap o.code)
    else .error .unsupportedType
  match lookupStep with
  | .error e => .error e
  | .ok none => .error .unmappedCode
  | .ok (some (.templates ts)) => .ok ts
  | .ok (some (.saddle m)) =>
      match m o.meanCode with
      | some ts => .ok ts
      | none => .error .unmappedCode

/-- A world-space vertex (x, y, z). -/
abbrev Point3 := ℚ × ℚ × ℚ

/-- Output geometry of getVertices: a flat vertex list for iso-lines, a list
of polygon rings for iso-bands. -/
inductive Geometry where
  | lines (pts : List Point3)
  | bands (polys : List (List Point3))
deriving DecidableEq, Repr

/-- All world points a geometry contains. -/
def Geometry.points : Geometry → List Point3
  | .lines pts => pts
  | .bands polys => polys.flatten

/-- getVertices (source lines 126-207): offset selection, the cell-address
asserts, the reference vertex and depth, and the switch emitting either the
flat vertex list (iso-lines) or the polygon list (iso-bands). -/
def getVertices (isolinesMap isobandsMap : OffsetMap)
    (o : GetVerticesOpts) : Except MSError Geometry :=
  match resolveOffsets isolinesMap isobandsMap o with
  | .error e => .error e
  | .ok offsets =>
    if ¬(-1 ≤ o.x) then .error .outOfRange
    else if ¬(-1 ≤ o.y) then .error .outOfRange
    else
      let vZ : ℚ := mergedZIndex o * Z_OFFSET * mergedZOffsetScale o
      let rX : ℚ := ((o.x : ℚ) + 1) * o.cellSize.1
      let rY : ℚ := ((o.y : ℚ) + 1) * o.cellSize.2
      let refVertexX : ℚ := o.gridOrigin.1 + rX
      let refVertexY : ℚ := o.gridOrigin.2 + rY
      let type := o.type.getD CONTOUR_TYPE.ISO_LINES
      if type = CONTOUR_TYPE.ISO_LINES then
        .ok (.lines (offsets.flatMap (fun xyOffsets =>
          xyOffsets.map (fun offset =>
            (refVertexX + offset.1 * o.cellSize.1,
             refVertexY + offset.2 * o.cellSize.2, vZ)))))
      else if type = CONTOUR_TYPE.ISO_BANDS then
        .ok (.bands (offsets.map (fun polygonOffsets =>
          polygonOffsets.map (fun xyOffset =>
            (refVertexX + xyOffset.1 * o.cellSize.1,
             refVertexY + xyOffset.2 * o.cellSize.2, vZ)))))
      else .error .unsupportedType

/-! Helper lemmas about getVertexCode and getCodeImpl. -/

theorem getVertexCode_eq_ok (w : ℚ) (t : Threshold)
    (ht : thresholdAssertOk t = true) :
    getVertexCode w t = .ok (vertexCode w t) := by
  simp [getVertexCode, ht]

theorem getVertexCode_eq_err (w : ℚ) (t : Threshold)
    (ht : thresholdAssertOk t = false) :
    getVertexCode w t = .error .invalidThreshold := by
  simp [getVertexCode, ht]

theorem cornerStep_eq_ok (f : Bool) (w : ℚ) (t : Threshold)
    (ht : thresholdAssertOk t = true) :
    cornerStep f w t = .ok (if f then (none, 0) else (some w, vertexCode w t)) := by
  cases f <;> simp [cornerStep, getVertexCode_eq_ok w t ht]

theorem getCodeImpl_range_err (cw : ℤ → ℚ) (x y width height : ℤ)
    (t : Threshold) (hr : ¬(-1 ≤ x ∧ x < width) ∨ ¬(-1 ≤ y ∧ y < height)) :
    getCodeImpl cw x y width height t = .error .outOfRange := by
  unfold getCodeImpl
  rcases hr with h1 | h1
  · rw [if_pos h1]
  · by_cases h2 : ¬(-1 ≤ x ∧ x < width)
    · rw [if_pos h2]
    · rw [if_neg h2, if_pos h1]

theorem getCodeImpl_characterization (cw : ℤ → ℚ) (x y width height : ℤ)
    (t : Threshold) (hx1 : -1 ≤ x) (hx2 : x < width) (hy1 : -1 ≤ y)
    (hy2 : y < height) (ht : thresholdAssertOk t = true) :
    getCodeImpl cw x y width height t =
      .ok { code := packCode t (classTop cw x y width height t)
              (classTopRight cw x y width height t)
              (classRight cw x y width height t)
              (classCurrent cw x y width height t),
            meanCode := cellMeanCode cw x y width height t } := by
  unfold getCodeImpl
  rw [if_neg (not_not_intro ⟨hx1, hx2⟩), if_neg (not_not_intro ⟨hy1, hy2⟩)]
  rcases t with v | xs | _
  · have hv : v.isFiniteNum = true := by
      simpa [thresholdAssertOk, Threshold.isFiniteScalar, Threshold.isArr] using ht
    by_cases hL : x < 0 <;> by_cases hR : width - 1 ≤ x <;>
      by_cases hB : y < 0 <;> by_cases hT : height - 1 ≤ y <;>
      simp [cornerStep_eq_ok _ _ _ ht, getVertexCode_eq_ok _ _ ht, packCode,
        classTop, classTopRight, classRight, classCurrent, cellMeanCode,
        forcedTop, forcedTopRight, forcedRight, forcedCurrent, cellIsBoundary,
        Threshold.isFiniteScalar, Threshold.isArr, hv, hL, hR, hB, hT]
  · by_cases hL : x < 0 <;> by_cases hR : width - 1 ≤ x <;>
      by_cases hB : y < 0 <;> by_cases hT : height - 1 ≤ y <;>
      simp [cornerStep_eq_ok _ _ _ ht, getVertexCode_eq_ok _ _ ht, packCode,
        classTop, classTopRight, classRight, classCurrent, cellMeanCode,
        forcedTop, forcedTopRight, forcedRight, forcedCurrent, cellIsBoundary,
        Threshold.isFiniteScalar, Threshold.isArr, hL, hR, hB, hT]
  · simp [thresholdAssertOk, Threshold.isFiniteScalar, Threshold.isArr] at ht

theorem getCodeImpl_invalidThreshold (cw : ℤ → ℚ) (x y width height : ℤ)
    (t : Threshold) (hw : 1 ≤ width) (hh : 1 ≤ height) (hx1 : -1 ≤ x)
    (hx2 : x < width) (hy1 : -1 ≤ y) (hy2 : y < height)
    (ht : thresholdAssertOk t = false) :
    getCodeImpl cw x y width height t = .error .invalidThreshold := by
  unfold getCodeImpl
  rw [if_neg (not_not_intro ⟨hx1, hx2⟩), if_neg (not_not_intro ⟨hy1, hy2⟩)]
  by_cases hL : x < 0 <;> by_cases hR : width - 1 ≤ x <;>
    by_cases hB : y < 0 <;> by_cases hT : height - 1 ≤ y <;>
    first
      | (exfalso; omega)
      | simp [cornerStep, getVertexCode_eq_err _ _ ht, hL, hR, hB, hT]

/-- Spec-side predicate: a corner (cx, cy) lies outside the grid
range [0, width) x [0, height). -/
abbrev cornerOutside (width height cx cy : ℤ) : Prop :=
  cx < 0 ∨ width ≤ cx ∨ cy < 0 ∨ height ≤ cy

/-- Spec-side corner class: 0 for an out-of-grid corner, otherwise the
vertex class of the corner sample data(cy * width + cx). -/
def specCornerClass (cw : ℤ → ℚ) (width height : ℤ) (t : Threshold)
    (cx cy : ℤ) : ℕ :=
  if cornerOutside width height cx cy then 0
  else vertexCode (cw (cy * width + cx)) t

/-- Spec-side slot extractor: the top-corner field of a packed code (bit 3
for a scalar threshold, bits 6-7 for a range threshold). -/
def slotTop (t : Threshold) (code : ℕ) : ℕ :=
  if t.isFiniteScalar then (code >>> 3) &&& 1 else (code >>> 6) &&& 3

/-- Spec-side slot extractor: the top-right-corner field of a packed code. -/
def slotTopRight (t : Threshold) (code : ℕ) : ℕ :=
  if t.isFiniteScalar then (code >>> 2) &&& 1 else (code >>> 4) &&& 3

/-- Spec-side slot extractor: the right-corner field of a packed code. -/
def slotRight (t : Threshold) (code : ℕ) : ℕ :=
  if t.isFiniteScalar then (code >>> 1) &&& 1 else (code >>> 2) &&& 3

/-- Spec-side slot extractor: the current-corner field of a packed code. -/
def slotCurrent (t : Threshold) (code : ℕ) : ℕ :=
  if t.isFiniteScalar then code &&& 1 else code &&& 3

theorem vertexCode_le_two (w : ℚ) (t : Threshold) : vertexCode w t ≤ 2 := by
  rcases t with v | xs | _ <;> simp only [vertexCode] <;>
    first
      | (split_ifs <;> omega)
      | omega


theorem vertexCode_num_le_one (w : ℚ) (v : JSNum) :
    vertexCode w (.num v) ≤ 1 := by
  simp only [vertexCode]; split_ifs <;> omega

theorem extract4 (a b c d : ℕ) (ha : a ≤ 1) (hb : b ≤ 1) (hc : c ≤ 1)
    (hd : d ≤ 1) :
    (((a <<< 3) ||| (b <<< 2) ||| (c <<< 1) ||| d) >>> 3) &&& 1 = a ∧
    (((a <<< 3) ||| (b <<< 2) ||| (c <<< 1) ||| d) >>> 2) &&& 1 = b ∧
    (((a <<< 3) ||| (b <<< 2) ||| (c <<< 1) ||| d) >>> 1) &&& 1 = c ∧
    ((a <<< 3) ||| (b <<< 2) ||| (c <<< 1) ||| d) &&& 1 = d := by
  interval_cases a <;> interval_cases b <;> interval_cases c <;>
    interval_cases d <;> decide

theorem extract8 (a b c d : ℕ) (ha : a ≤ 2) (hb : b ≤ 2) (hc : c ≤ 2)
    (hd : d ≤ 2) :
    (((a <<< 6) ||| (b <<< 4) ||| (c <<< 2) ||| d) >>> 6) &&& 3 = a ∧
    (((a <<< 6) ||| (b <<< 4) ||| (c <<< 2) ||| d) >>> 4) &&& 3 = b ∧
    (((a <<< 6) ||| (b <<< 4) ||| (c <<< 2) ||| d) >>> 2) &&& 3 = c ∧
    ((a <<< 6) ||| (b <<< 4) ||| (c <<< 2) ||| d) &&& 3 = d := by
  interval_cases a <;> interval_cases b <;> interval_cases c <;>
    interval_cases d <;> decide

theorem pack4_le_15 (a b c d : ℕ) (ha : a ≤ 1) (hb : b ≤ 1) (hc : c ≤ 1)
    (hd : d ≤ 1) : (a <<< 3) ||| (b <<< 2) ||| (c <<< 1) ||| d ≤ 15 := by
  interval_cases a <;> interval_cases b <;> interval_cases c <;>
    interval_cases d <;> decide

theorem getCodeImpl_ok_range (cw : ℤ → ℚ) (x y width height : ℤ)
    (t : Threshold) (r : CodeResult)
    (hok : getCodeImpl cw x y width height t = .ok r) :
    -1 ≤ x ∧ x < width ∧ -1 ≤ y ∧ y < height := by
  by_cases c1 : -1 ≤ x ∧ x < width
  · by_cases c2 : -1 ≤ y ∧ y < height
    · exact ⟨c1.1, c1.2, c2.1, c2.2⟩
    · rw [getCodeImpl_range_err cw x y width height t (Or.inr c2)] at hok
      cases hok
  · rw [getCodeImpl_range_err cw x y width height t (Or.inl c1)] at hok
    cases hok

theorem getCodeImpl_ok_assert (cw : ℤ → ℚ) (x y width height : ℤ)
    (t : Threshold) (r : CodeResult) (hw : 1 ≤ width) (hh : 1 ≤ height)
    (hok : getCodeImpl cw x y width height t = .ok r) :
    thresholdAssertOk t = true := by
  rcases getCodeImpl_ok_range cw x y width height t r hok with ⟨hx1, hx2, hy1, hy2⟩
  by_cases ht : thresholdAssertOk t = true
  · exact ht
  · rw [getCodeImpl_invalidThreshold cw x y width height t hw hh hx1 hx2 hy1
      hy2 (by simpa using ht)] at hok
    cases hok

theorem class_eq_spec_generic (cw : ℤ → ℚ) (width height cx cy : ℤ)
    (t : Threshold) (forced : Bool)
    (hiff : forced = true ↔ cornerOutside width height cx cy) :
    (if forced then 0 else vertexCode (cw (cy * width + cx)) t) =
      specCornerClass cw width height t cx cy := by
  by_cases hout : cornerOutside width height cx cy
  · simp [specCornerClass, hout, hiff.mpr hout]
  · have hf : forced = false := by
      cases forced
      · rfl
      · exact absurd (hiff.mp rfl) hout
    simp [specCornerClass, hout, hf]

theorem classTop_eq_spec (cw : ℤ → ℚ) (x y width height : ℤ) (t : Threshold)
    (hx1 : -1 ≤ x) (hx2 : x < width) (hy1 : -1 ≤ y) (hy2 : y < height) :
    classTop cw x y width height t = specCornerClass cw width height t x (y + 1) := by
  unfold classTop
  apply class_eq_spec_generic
  simp only [forcedTop, cornerOutside, Bool.or_eq_true, decide_eq_true_eq]
  omega

theorem classTopRight_eq_spec (cw : ℤ → ℚ) (x y width height : ℤ)
    (t : Threshold) (hx1 : -1 ≤ x) (hx2 : x < width) (hy1 : -1 ≤ y)
    (hy2 : y < height) :
    classTopRight cw x y width height t =
      specCornerClass cw width height t (x + 1) (y + 1) := by
  unfold classTopRight
  rw [show (y + 1) * width + x + 1 = (y + 1) * width + (x + 1) by ring]
  apply class_eq_spec_generic
  simp only [forcedTopRight, cornerOutside, Bool.or_eq_true, decide_eq_true_eq]
  omega

theorem classRight_eq_spec (cw : ℤ → ℚ) (x y width height : ℤ)
    (t : Threshold) (hx1 : -1 ≤ x) (hx2 : x < width) (hy1 : -1 ≤ y)
    (hy2 : y < height) :
    classRight cw x y width height t =
      specCornerClass cw width height t (x + 1) y := by
  unfold classRight
  rw [show y * width + x + 1 = y * width + (x + 1) by ring]
  apply class_eq_spec_generic
  simp only [forcedRight, cornerOutside, Bool.or_eq_true, decide_eq_true_eq]
  omega

theorem classCurrent_eq_spec (cw : ℤ → ℚ) (x y width height : ℤ)
    (t : Threshold) (hx1 : -1 ≤ x) (hx2 : x < width) (hy1 : -1 ≤ y)
    (hy2 : y < height) :
    classCurrent cw x y width height t =
      specCornerClass cw width height t x y := by
  unfold classCurrent
  apply class_eq_spec_generic
  simp only [forcedCurrent, cornerOutside, Bool.or_eq_true, decide_eq_true_eq]
  omega

theorem classTop_le_two (cw : ℤ → ℚ) (x y width height : ℤ) (t : Threshold) :
    classTop cw x y width height t ≤ 2 := by
  unfold classTop; split_ifs
  · omega
  · exact vertexCode_le_two _ _

theorem classTopRight_le_two (cw : ℤ → ℚ) (x y width height : ℤ)
    (t : Threshold) : classTopRight cw x y width height t ≤ 2 := by
  unfold classTopRight; split_ifs
  · omega
  · exact vertexCode_le_two _ _

theorem classRight_le_two (cw : ℤ → ℚ) (x y width height : ℤ)
    (t : Threshold) : classRight cw x y width height t ≤ 2 := by
  unfold classRight; split_ifs
  · omega
  · exact vertexCode_le_two _ _

theorem classCurrent_le_two (cw : ℤ → ℚ) (x y width height : ℤ)
    (t : Threshold) : classCurrent cw x y width height t ≤ 2 := by
  unfold classCurrent; split_ifs
  · omega
  · exact vertexCode_le_two _ _

theorem classTop_num_le_one (cw : ℤ → ℚ) (x y width height : ℤ) (v : JSNum) :
    classTop cw x y width height (.num v) ≤ 1 := by
  unfold classTop; split_ifs
  · omega
  · exact vertexCode_num_le_one _ _

theorem classTopRight_num_le_one (cw : ℤ → ℚ) (x y width height : ℤ)
    (v : JSNum) : classTopRight cw x y width height (.num v) ≤ 1 := by
  unfold classTopRight; split_ifs
  · omega
  · exact vertexCode_num_le_one _ _

theorem classRight_num_le_one (cw : ℤ → ℚ) (x y width height : ℤ)
    (v : JSNum) : classRight cw x y width height (.num v) ≤ 1 := by
  unfold classRight; split_ifs
  · omega
  · exact vertexCode_num_le_one _ _

theorem classCurrent_num_le_one (cw : ℤ → ℚ) (x y width height : ℤ)
    (v : JSNum) : classCurrent cw x y width height (.num v) ≤ 1 := by
  unfold classCurrent; split_ifs
  · omega
  · exact vertexCode_num_le_one _ _

theorem cellIsBoundary_iff (x y width height : ℤ) (hx1 : -1 ≤ x)
    (hx2 : x < width) (hy1 : -1 ≤ y) (hy2 : y < height) :
    cellIsBoundary x y width height = true ↔
      (cornerOutside width height x (y + 1) ∨
       cornerOutside width height (x + 1) (y + 1) ∨
       cornerOutside width height (x + 1) y ∨
       cornerOutside width height x y) := by
  simp only [cellIsBoundary, cornerOutside, Bool.or_eq_true, decide_eq_true_eq]
  omega

theorem thresholdAssertOk_iff (t : Threshold) :
    thresholdAssertOk t = true ↔
      (t.isFiniteScalar = true ∨ (t.isArr = true ∧ 1 < t.len)) := by
  simp [thresholdAssertOk, Bool.or_eq_true, Bool.and_eq_true, decide_eq_true_eq]

theorem assertOk_of_specValid (t : Threshold)
    (h : specValidThreshold t = true) : thresholdAssertOk t = true := by
  rcases t with v | xs | _
  · rcases v <;>
      simp_all [specValidThreshold, thresholdAssertOk, Threshold.isFiniteScalar,
        Threshold.isArr, JSNum.isFiniteNum]
  · rcases xs with _ | ⟨a, _ | ⟨b, ys⟩⟩
    · simp [specValidThreshold] at h
    · rcases a <;> simp [specValidThreshold] at h
    · simp [thresholdAssertOk, Threshold.isFiniteScalar, Threshold.isArr,
        Threshold.len]
  · simp [specValidThreshold] at h

/-! Claim theorems. -/

/-- Spec-side count of corner slots of a packed code that are exactly the
class 1. -/
def cornerOnesCount (t : Threshold) (code : ℕ) : ℕ :=
  (if slotTop t code = 1 then 1 else 0) +
  (if slotTopRight t code = 1 then 1 else 0) +
  (if slotRight t code = 1 then 1 else 0) +
  (if slotCurrent t code = 1 then 1 else 0)

/-- Round-trip scenario 1 sample grid: width=2, height=2, samples
[0, 0, 0, 10] in row-major order. -/
def scenario1Weights : ℤ → ℚ := fun i => if i = 3 then 10 else 0

/-- Round-trip scenario 1 threshold: the finite scalar 5. -/
def scenario1Threshold : Threshold := .num (.finite 5)

/-- Round-trip scenario 1 classification call at cell (x, y). -/
def scenario1Opts (x y : ℤ) : GetCodeOpts :=
  { cellWeights := scenario1Weights, x := x, y := y, width := 2, height := 2,
    threshold := scenario1Threshold }

/-- Number of class-1 corner slots of the scenario-1 classification of cell
(x, y), or none when classification fails. -/
def codeOnesAt (x y : ℤ) : Option ℕ :=
  match getCode (scenario1Opts x y) with
  | .ok r => some (cornerOnesCount scenario1Threshold r.code)
  | .error _ => none

/-- Claim C1 (counterexample): it is false that, in round-trip scenario 1,
the cell at (0, 0) is the only cell address in the valid range whose
classification has exactly one corner slot of class 1: the cell at (1, 1)
also classifies (code 1) with exactly one corner slot equal to 1. -/
theorem claim_C1_cex :
    ¬ (∀ x y : ℤ, -1 ≤ x → x ≤ 1 → -1 ≤ y → y ≤ 1 →
        (codeOnesAt x y = some 1 ↔ x = 0 ∧ y = 0)) := by
  intro hcl
  have h := (hcl 1 1 (by decide) (by decide) (by decide) (by decide)).mp
    (by decide)
  exact absurd h.1 (by decide)

/-- Claim C1 (amended): in round-trip scenario 1 (width=2, height=2, samples
[0,0,0,10], scalar threshold 5), every cell address in the valid
ghost-inclusive range classifies successfully, and exactly the four cells
with x ≥ 0 and y ≥ 0 — (0,0), (1,0), (0,1) and (1,1) — classify with exactly
one corner slot of class 1; every other cell address classifies with no
class-1 corner. -/
theorem claim_C1_thm (x y : ℤ) (hx1 : -1 ≤ x) (hx2 : x ≤ 1) (hy1 : -1 ≤ y)
    (hy2 : y ≤ 1) :
    codeOnesAt x y = some (if 0 ≤ x ∧ 0 ≤ y then 1 else 0) := by
  interval_cases x <;> interval_cases y <;> decide

/-- Claim C1 witness: the amended theorem evaluated at the cell (0, 0). -/
theorem claim_C1_wit :
    codeOnesAt 0 0 = some (if (0 : ℤ) ≤ 0 ∧ (0 : ℤ) ≤ 0 then 1 else 0) :=
  claim_C1_thm 0 0 (by decide) (by decide) (by decide) (by decide)

/-- Claim C2 (counterexample): it is false that classification rejects every
threshold that is not a finite scalar or strictly ascending 2-element range:
the descending 2-element range [5, 3] is not strictly ascending, yet getCode
accepts it and classifies successfully. -/
theorem claim_C2_cex :
    specValidThreshold (.arr [.finite 5, .finite 3]) = false ∧
    getCode { cellWeights := fun _ => 0, x := 0, y := 0, width := 2,
              height := 2, threshold := .arr [.finite 5, .finite 3] } =
      .ok { code := 0, meanCode := 0 } := by
  refine ⟨by decide, ?_⟩
  show getCodeImpl (fun _ => 0) 0 0 2 2 (.arr [.finite 5, .finite 3]) = _
  rw [getCodeImpl_characterization (fun _ => 0) 0 0 2 2
    (.arr [.finite 5, .finite 3]) (by decide) (by decide) (by decide)
    (by decide) (by decide)]
  simp [packCode, cellMeanCode, classTop, classTopRight, classRight,
    classCurrent, forcedTop, forcedTopRight, forcedRight, forcedCurrent,
    cellIsBoundary, vertexCode, jsLt, List.getD, Threshold.isFiniteScalar,
    Threshold.isArr, JSNum.isFiniteNum]

/-- Claim C2 (amended): for every cell address in the valid range of a grid
with positive dimensions, classification fails with an InvalidThreshold
error if and only if the threshold is neither a finite scalar nor an array
of length greater than 1 (the ascending-order requirement is not checked:
descending or degenerate 2-element ranges, and longer arrays, are accepted),
and no corner class is produced before such a failure. -/
theorem claim_C2_thm (cw : ℤ → ℚ) (x y width height : ℤ) (t : Threshold)
    (hw : 1 ≤ width) (hh : 1 ≤ height) (hx1 : -1 ≤ x) (hx2 : x < width)
    (hy1 : -1 ≤ y) (hy2 : y < height) :
    getCode { cellWeights := cw, x := x, y := y, width := width,
              height := height, threshold := t } = .error .invalidThreshold ↔
      ¬(t.isFiniteScalar = true ∨ (t.isArr = true ∧ 1 < t.len)) := by
  have he :
      getCode { cellWeights := cw, x := x, y := y, width := width,
                height := height, threshold := t } =
        getCodeImpl cw x y width height t := rfl
  rw [he, ← thresholdAssertOk_iff]
  constructor
  · intro herr
    intro hok
    rw [getCodeImpl_characterization cw x y width height t hx1 hx2 hy1 hy2
      hok] at herr
    cases herr
  · intro hbad
    have hf : thresholdAssertOk t = false := by
      cases hab : thresholdAssertOk t
      · rfl
      · exact absurd hab hbad
    exact getCodeImpl_invalidThreshold cw x y width height t hw hh hx1 hx2
      hy1 hy2 hf

/-- Claim C2 witness: the amended theorem evaluated at the cell (0, 0) of a
2x2 grid with the invalid threshold undefined. -/
theorem claim_C2_wit :
    (getCode { cellWeights := fun _ => (0 : ℚ), x := 0, y := 0, width := 2,
               height := 2, threshold := .undef } =
        .error .invalidThreshold ↔
      ¬(Threshold.undef.isFiniteScalar = true ∨
        (Threshold.undef.isArr = true ∧ 1 < Threshold.undef.len))) :=
  claim_C2_thm (fun _ => 0) 0 0 2 2 .undef (by decide) (by decide)
    (by decide) (by decide) (by decide) (by decide)

theorem slots_packCode (cw : ℤ → ℚ) (x y width height : ℤ) (t : Threshold)
    (ha : thresholdAssertOk t = true) :
    slotTop t (packCode t (classTop cw x y width height t)
        (classTopRight cw x y width height t) (classRight cw x y width height t)
        (classCurrent cw x y width height t)) = classTop cw x y width height t ∧
    slotTopRight t (packCode t (classTop cw x y width height t)
        (classTopRight cw x y width height t) (classRight cw x y width height t)
        (classCurrent cw x y width height t)) = classTopRight cw x y width height t ∧
    slotRight t (packCode t (classTop cw x y width height t)
        (classTopRight cw x y width height t) (classRight cw x y width height t)
        (classCurrent cw x y width height t)) = classRight cw x y width height t ∧
    slotCurrent t (packCode t (classTop cw x y width height t)
        (classTopRight cw x y width height t) (classRight cw x y width height t)
        (classCurrent cw x y width height t)) = classCurrent cw x y width height t := by
  rcases t with v | xs | _
  · have hfs : Threshold.isFiniteScalar (.num v) = true := by
      simpa [thresholdAssertOk, Threshold.isFiniteScalar, Threshold.isArr]
        using ha
    have hex := extract4 _ _ _ _
      (classTop_num_le_one cw x y width height v)
      (classTopRight_num_le_one cw x y width height v)
      (classRight_num_le_one cw x y width height v)
      (classCurrent_num_le_one cw x y width height v)
    simpa [slotTop, slotTopRight, slotRight, slotCurrent, packCode, hfs]
      using hex
  · have hfs : Threshold.isFiniteScalar (.arr xs) = false := rfl
    have hex := extract8 _ _ _ _
      (classTop_le_two cw x y width height (.arr xs))
      (classTopRight_le_two cw x y width height (.arr xs))
      (classRight_le_two cw x y width height (.arr xs))
      (classCurrent_le_two cw x y width height (.arr xs))
    simpa [slotTop, slotTopRight, slotRight, slotCurrent, packCode, hfs]
      using hex
  · simp [thresholdAssertOk, Threshold.isFiniteScalar, Threshold.isArr] at ha

theorem getCodeImpl_pack_spec (cw : ℤ → ℚ) (x y width height : ℤ)
    (t : Threshold) (hx1 : -1 ≤ x) (hx2 : x < width) (hy1 : -1 ≤ y)
    (hy2 : y < height) (ht : specValidThreshold t = true) :
    ∃ r : CodeResult, getCodeImpl cw x y width height t = .ok r ∧
      r.code =
        (if t.isFiniteScalar = true then
          (specCornerClass cw width height t x (y + 1) <<< 3) |||
          (specCornerClass cw width height t (x + 1) (y + 1) <<< 2) |||
          (specCornerClass cw width height t (x + 1) y <<< 1) |||
          specCornerClass cw width height t x y
        else
          (specCornerClass cw width height t x (y + 1) <<< 6) |||
          (specCornerClass cw width height t (x + 1) (y + 1) <<< 4) |||
          (specCornerClass cw width height t (x + 1) y <<< 2) |||
          specCornerClass cw width height t x y) := by
  have ha := assertOk_of_specValid t ht
  refine ⟨_, getCodeImpl_characterization cw x y width height t hx1 hx2 hy1
    hy2 ha, ?_⟩
  dsimp only
  rw [classTop_eq_spec cw x y width height t hx1 hx2 hy1 hy2,
    classTopRight_eq_spec cw x y width height t hx1 hx2 hy1 hy2,
    classRight_eq_spec cw x y width height t hx1 hx2 hy1 hy2,
    classCurrent_eq_spec cw x y width height t hx1 hx2 hy1 hy2, packCode]

/-- Claim C3: for every valid cell address and valid threshold, getCode
packs the four corner classes into the returned code in corner order top,
top-right, right, current: with a scalar threshold the code equals
(top shifted left 3) or (topRight shifted left 2) or (right shifted left 1)
or current, and with a range threshold it equals the analogous packing with
shifts 6, 4, 2, 0. -/
theorem claim_C3_thm (o : GetCodeOpts) (hx1 : -1 ≤ o.x) (hx2 : o.x < o.width)
    (hy1 : -1 ≤ o.y) (hy2 : o.y < o.height)
    (ht : specValidThreshold (effectiveThreshold o) = true) :
    ∃ r : CodeResult, getCode o = .ok r ∧
      r.code =
        (if (effectiveThreshold o).isFiniteScalar = true then
          (specCornerClass o.cellWeights o.width o.height (effectiveThreshold o)
              o.x (o.y + 1) <<< 3) |||
          (specCornerClass o.cellWeights o.width o.height (effectiveThreshold o)
              (o.x + 1) (o.y + 1) <<< 2) |||
          (specCornerClass o.cellWeights o.width o.height (effectiveThreshold o)
              (o.x + 1) o.y <<< 1) |||
          specCornerClass o.cellWeights o.width o.height (effectiveThreshold o)
            o.x o.y
        else
          (specCornerClass o.cellWeights o.width o.height (effectiveThreshold o)
              o.x (o.y + 1) <<< 6) |||
          (specCornerClass o.cellWeights o.width o.height (effectiveThreshold o)
              (o.x + 1) (o.y + 1) <<< 4) |||
          (specCornerClass o.cellWeights o.width o.height (effectiveThreshold o)
              (o.x + 1) o.y <<< 2) |||
          specCornerClass o.cellWeights o.width o.height (effectiveThreshold o)
            o.x o.y) :=
  getCodeImpl_pack_spec o.cellWeights o.x o.y o.width o.height
    (effectiveThreshold o) hx1 hx2 hy1 hy2 ht

/-- Claim C3 witness: the theorem evaluated at scenario-1 cell (0, 0). -/
theorem claim_C3_wit :
    ∃ r : CodeResult, getCode (scenario1Opts 0 0) = .ok r ∧
      r.code =
        (if (effectiveThreshold (scenario1Opts 0 0)).isFiniteScalar = true then
          (specCornerClass (scenario1Opts 0 0).cellWeights
              (scenario1Opts 0 0).width (scenario1Opts 0 0).height
              (effectiveThreshold (scenario1Opts 0 0))
              (scenario1Opts 0 0).x ((scenario1Opts 0 0).y + 1) <<< 3) |||
          (specCornerClass (scenario1Opts 0 0).cellWeights
              (scenario1Opts 0 0).width (scenario1Opts 0 0).height
              (effectiveThreshold (scenario1Opts 0 0))
              ((scenario1Opts 0 0).x + 1) ((scenario1Opts 0 0).y + 1) <<< 2) |||
          (specCornerClass (scenario1Opts 0 0).cellWeights
              (scenario1Opts 0 0).width (scenario1Opts 0 0).height
              (effectiveThreshold (scenario1Opts 0 0))
              ((scenario1Opts 0 0).x + 1) (scenario1Opts 0 0).y <<< 1) |||
          specCornerClass (scenario1Opts 0 0).cellWeights
            (scenario1Opts 0 0).width (scenario1Opts 0 0).height
            (effectiveThreshold (scenario1Opts 0 0))
            (scenario1Opts 0 0).x (scenario1Opts 0 0).y
        else
          (specCornerClass (scenario1Opts 0 0).cellWeights
              (scenario1Opts 0 0).width (scenario1Opts 0 0).height
              (effectiveThreshold (scenario1Opts 0 0))
              (scenario1Opts 0 0).x ((scenario1Opts 0 0).y + 1) <<< 6) |||
          (specCornerClass (scenario1Opts 0 0).cellWeights
              (scenario1Opts 0 0).width (scenario1Opts 0 0).height
              (effectiveThreshold (scenario1Opts 0 0))
              ((scenario1Opts 0 0).x + 1) ((scenario1Opts 0 0).y + 1) <<< 4) |||
          (specCornerClass (scenario1Opts 0 0).cellWeights
              (scenario1Opts 0 0).width (scenario1Opts 0 0).height
              (effectiveThreshold (scenario1Opts 0 0))
              ((scenario1Opts 0 0).x + 1) (scenario1Opts 0 0).y <<< 2) |||
          specCornerClass (scenario1Opts 0 0).cellWeights
            (scenario1Opts 0 0).width (scenario1Opts 0 0).height
            (effectiveThreshold (scenario1Opts 0 0))
            (scenario1Opts 0 0).x (scenario1Opts 0 0).y) :=
  claim_C3_thm (scenario1Opts 0 0) (by decide) (by decide) (by decide)
    (by decide) (by decide)

theorem getCodeImpl_boundary_slots (cw : ℤ → ℚ) (x y width height : ℤ)
    (t : Threshold) (r : CodeResult) (hw : 1 ≤ width) (hh : 1 ≤ height)
    (hok : getCodeImpl cw x y width height t = .ok r) :
    (cornerOutside width height x (y + 1) → slotTop t r.code = 0) ∧
    (cornerOutside width height (x + 1) (y + 1) → slotTopRight t r.code = 0) ∧
    (cornerOutside width height (x + 1) y → slotRight t r.code = 0) ∧
    (cornerOutside width height x y → slotCurrent t r.code = 0) ∧
    ((cornerOutside width height x (y + 1) ∨
      cornerOutside width height (x + 1) (y + 1) ∨
      cornerOutside width height (x + 1) y ∨
      cornerOutside width height x y) → r.meanCode = 0) := by
  obtain ⟨hx1, hx2, hy1, hy2⟩ := getCodeImpl_ok_range cw x y width height t r hok
  have ha := getCodeImpl_ok_assert cw x y width height t r hw hh hok
  rw [getCodeImpl_characterization cw x y width height t hx1 hx2 hy1 hy2 ha]
    at hok
  injection hok with hok
  subst hok
  obtain ⟨e1, e2, e3, e4⟩ := slots_packCode cw x y width height t ha
  refine ⟨fun hout => ?_, fun hout => ?_, fun hout => ?_, fun hout => ?_,
    fun hany => ?_⟩
  · dsimp only
    rw [e1]
    have hf : forcedTop x y width height = true := by
      simp only [forcedTop, Bool.or_eq_true, decide_eq_true_eq]
      rcases hout with h | h | h | h <;> omega
    simp [classTop, hf]
  · dsimp only
    rw [e2]
    have hf : forcedTopRight x y width height = true := by
      simp only [forcedTopRight, Bool.or_eq_true, decide_eq_true_eq]
      rcases hout with h | h | h | h <;> omega
    simp [classTopRight, hf]
  · dsimp only
    rw [e3]
    have hf : forcedRight x y width height = true := by
      simp only [forcedRight, Bool.or_eq_true, decide_eq_true_eq]
      rcases hout with h | h | h | h <;> omega
    simp [classRight, hf]
  · dsimp only
    rw [e4]
    have hf : forcedCurrent x y width height = true := by
      simp only [forcedCurrent, Bool.or_eq_true, decide_eq_true_eq]
      rcases hout with h | h | h | h <;> omega
    simp [classCurrent, hf]
  · dsimp only
    have hb : cellIsBoundary x y width height = true :=
      (cellIsBoundary_iff x y width height hx1 hx2 hy1 hy2).mpr hany
    simp [cellMeanCode, hb]

/-- Claim C4: for every cell address in the valid range where any of the
four logical corners (top, top-right, right, current) lies outside the
grid, getCode forces that corner's class to 0 independently of the sample
data (the corresponding slot of the returned code is 0 for every
cellWeights function), and for every such cell the returned meanCode is the
placeholder 0. -/
theorem claim_C4_thm (o : GetCodeOpts) (r : CodeResult) (hw : 1 ≤ o.width)
    (hh : 1 ≤ o.height) (hok : getCode o = .ok r) :
    (cornerOutside o.width o.height o.x (o.y + 1) →
      slotTop (effectiveThreshold o) r.code = 0) ∧
    (cornerOutside o.width o.height (o.x + 1) (o.y + 1) →
      slotTopRight (effectiveThreshold o) r.code = 0) ∧
    (cornerOutside o.width o.height (o.x + 1) o.y →
      slotRight (effectiveThreshold o) r.code = 0) ∧
    (cornerOutside o.width o.height o.x o.y →
      slotCurrent (effectiveThreshold o) r.code = 0) ∧
    ((cornerOutside o.width o.height o.x (o.y + 1) ∨
      cornerOutside o.width o.height (o.x + 1) (o.y + 1) ∨
      cornerOutside o.width o.height (o.x + 1) o.y ∨
      cornerOutside o.width o.height o.x o.y) → r.meanCode = 0) :=
  getCodeImpl_boundary_slots o.cellWeights o.x o.y o.width o.height
    (effectiveThreshold o) r hw hh hok

/-- Claim C4 witness: the theorem evaluated at the scenario-1 ghost cell
(-1, 0), whose top, top-right and current corners involve the out-of-grid
column -1. -/
theorem claim_C4_wit :
    (cornerOutside (scenario1Opts (-1) 0).width (scenario1Opts (-1) 0).height
        (scenario1Opts (-1) 0).x ((scenario1Opts (-1) 0).y + 1) →
      slotTop (effectiveThreshold (scenario1Opts (-1) 0)) 0 = 0) ∧
    (cornerOutside (scenario1Opts (-1) 0).width (scenario1Opts (-1) 0).height
        ((scenario1Opts (-1) 0).x + 1) ((scenario1Opts (-1) 0).y + 1) →
      slotTopRight (effectiveThreshold (scenario1Opts (-1) 0)) 0 = 0) ∧
    (cornerOutside (scenario1Opts (-1) 0).width (scenario1Opts (-1) 0).height
        ((scenario1Opts (-1) 0).x + 1) (scenario1Opts (-1) 0).y →
      slotRight (effectiveThreshold (scenario1Opts (-1) 0)) 0 = 0) ∧
    (cornerOutside (scenario1Opts (-1) 0).width (scenario1Opts (-1) 0).height
        (scenario1Opts (-1) 0).x (scenario1Opts (-1) 0).y →
      slotCurrent (effectiveThreshold (scenario1Opts (-1) 0)) 0 = 0) ∧
    ((cornerOutside (scenario1Opts (-1) 0).width (scenario1Opts (-1) 0).height
        (scenario1Opts (-1) 0).x ((scenario1Opts (-1) 0).y + 1) ∨
      cornerOutside (scenario1Opts (-1) 0).width (scenario1Opts (-1) 0).height
        ((scenario1Opts (-1) 0).x + 1) ((scenario1Opts (-1) 0).y + 1) ∨
      cornerOutside (scenario1Opts (-1) 0).width (scenario1Opts (-1) 0).height
        ((scenario1Opts (-1) 0).x + 1) (scenario1Opts (-1) 0).y ∨
      cornerOutside (scenario1Opts (-1) 0).width (scenario1Opts (-1) 0).height
        (scenario1Opts (-1) 0).x (scenario1Opts (-1) 0).y) →
      (0 : ℕ) = 0) :=
  claim_C4_thm (scenario1Opts (-1) 0) { code := 0, meanCode := 0 }
    (by decide) (by decide) (by decide)

theorem getCodeImpl_code_shape (cw : ℤ → ℚ) (x y width height : ℤ)
    (t : Threshold) (r : CodeResult) (hw : 1 ≤ width) (hh : 1 ≤ height)
    (hok : getCodeImpl cw x y width height t = .ok r) :
    (t.isFiniteScalar = true → r.code ≤ 15) ∧
    (t.isArr = true →
      ∃ a b c d : ℕ, a ≤ 2 ∧ b ≤ 2 ∧ c ≤ 2 ∧ d ≤ 2 ∧
        r.code = (a <<< 6) ||| (b <<< 4) ||| (c <<< 2) ||| d) := by
  obtain ⟨hx1, hx2, hy1, hy2⟩ := getCodeImpl_ok_range cw x y width height t r hok
  have ha := getCodeImpl_ok_assert cw x y width height t r hw hh hok
  rw [getCodeImpl_characterization cw x y width height t hx1 hx2 hy1 hy2 ha]
    at hok
  injection hok with hok
  subst hok
  constructor
  · intro hfs
    dsimp only
    rcases t with v | xs | _
    · rw [packCode, if_pos hfs]
      exact pack4_le_15 _ _ _ _
        (classTop_num_le_one cw x y width height v)
        (classTopRight_num_le_one cw x y width height v)
        (classRight_num_le_one cw x y width height v)
        (classCurrent_num_le_one cw x y width height v)
    · simp [Threshold.isFiniteScalar] at hfs
    · simp [Threshold.isFiniteScalar] at hfs
  · intro hia
    dsimp only
    rcases t with v | xs | _
    · simp [Threshold.isArr] at hia
    · refine ⟨classTop cw x y width height (.arr xs),
        classTopRight cw x y width height (.arr xs),
        classRight cw x y width height (.arr xs),
        classCurrent cw x y width height (.arr xs),
        classTop_le_two cw x y width height (.arr xs),
        classTopRight_le_two cw x y width height (.arr xs),
        classRight_le_two cw x y width height (.arr xs),
        classCurrent_le_two cw x y width height (.arr xs), ?_⟩
      rw [packCode, if_neg]
      simp [Threshold.isFiniteScalar]
    · simp [Threshold.isArr] at hia

/-- Claim C5: for every successful classification on a grid with positive
dimensions, with a scalar (iso-line) threshold the code returned by getCode
is always in the range 0 to 15, and with a range (iso-band) threshold the
code is always expressible as four 2-bit fields at bit positions 6, 4, 2
and 0 with each field value at most 2. -/
theorem claim_C5_thm (o : GetCodeOpts) (r : CodeResult) (hw : 1 ≤ o.width)
    (hh : 1 ≤ o.height) (hok : getCode o = .ok r) :
    ((effectiveThreshold o).isFiniteScalar = true → r.code ≤ 15) ∧
    ((effectiveThreshold o).isArr = true →
      ∃ a b c d : ℕ, a ≤ 2 ∧ b ≤ 2 ∧ c ≤ 2 ∧ d ≤ 2 ∧
        r.code = (a <<< 6) ||| (b <<< 4) ||| (c <<< 2) ||| d) :=
  getCodeImpl_code_shape o.cellWeights o.x o.y o.width o.height
    (effectiveThreshold o) r hw hh hok

/-- Claim C5 witness: the theorem evaluated at the scenario-1 cell (1, 1),
whose classification succeeds with code 1. -/
theorem claim_C5_wit :
    ((effectiveThreshold (scenario1Opts 1 1)).isFiniteScalar = true →
      ({ code := 1, meanCode := 0 } : CodeResult).code ≤ 15) ∧
    ((effectiveThreshold (scenario1Opts 1 1)).isArr = true →
      ∃ a b c d : ℕ, a ≤ 2 ∧ b ≤ 2 ∧ c ≤ 2 ∧ d ≤ 2 ∧
        ({ code := 1, meanCode := 0 } : CodeResult).code =
          (a <<< 6) ||| (b <<< 4) ||| (c <<< 2) ||| d) :=
  claim_C5_thm (scenario1Opts 1 1) { code := 1, meanCode := 0 }
    (by decide) (by decide) (by decide)

/-- Claim C6: the corner classification is monotonic in the sample value:
for every valid threshold (finite scalar or strictly ascending 2-element
range) and any two sample values w1 and w2 with w1 at most w2, the corner
class assigned to w1 is at most the class assigned to w2. -/
theorem claim_C6_thm (t : Threshold) (w1 w2 : ℚ) (c1 c2 : ℕ)
    (ht : specValidThreshold t = true) (h12 : w1 ≤ w2)
    (h1 : getVertexCode w1 t = .ok c1) (h2 : getVertexCode w2 t = .ok c2) :
    c1 ≤ c2 := by
  have ha := assertOk_of_specValid t ht
  rw [getVertexCode_eq_ok w1 t ha] at h1
  rw [getVertexCode_eq_ok w2 t ha] at h2
  injection h1 with h1
  injection h2 with h2
  subst h1
  subst h2
  rcases t with v | xs | _
  · rcases v with q | _ | _ | _
    · simp only [vertexCode, jsGe, decide_eq_true_eq]
      split_ifs with hq1 hq2 <;> first | omega | linarith
    · simp [specValidThreshold] at ht
    · simp [specValidThreshold] at ht
    · simp [specValidThreshold] at ht
  · rcases xs with _ | ⟨a, _ | ⟨b, _ | ⟨c, ys⟩⟩⟩
    · simp [specValidThreshold] at ht
    · rcases a <;> simp [specValidThreshold] at ht
    · rcases a with lo | _ | _ | _ <;> rcases b with hi | _ | _ | _ <;>
        first
          | (simp only [vertexCode, jsLt, List.getD_cons_zero,
              List.getD_cons_succ, decide_eq_true_eq]
             split_ifs <;> first | omega | linarith)
          | simp [specValidThreshold] at ht
    · rcases a <;> rcases b <;> simp [specValidThreshold] at ht
  · simp [specValidThreshold] at ht

/-- Claim C6 witness: the theorem evaluated at the scalar threshold 5 with
samples 3 and 7. -/
theorem claim_C6_wit : (0 : ℕ) ≤ 1 :=
  claim_C6_thm (.num (.finite 5)) 3 7 0 1 (by decide) (by norm_num)
    (by decide) (by decide)

/-- Claim C8: for every input whose contour type is neither ISO_LINES nor
ISO_BANDS, getVertices fails with an UnsupportedType error and returns no
geometry. -/
theorem claim_C8_thm (isolinesMap isobandsMap : OffsetMap)
    (o : GetVerticesOpts) (tv : ℕ) (htype : o.type = some tv)
    (h1 : tv ≠ CONTOUR_TYPE.ISO_LINES) (h2 : tv ≠ CONTOUR_TYPE.ISO_BANDS) :
    getVertices isolinesMap isobandsMap o = .error .unsupportedType := by
  simp only [getVertices, resolveOffsets, htype, Option.getD_some]
  rw [if_neg h1, if_neg h2]

/-- Sample iso-lines offset table for concrete witnesses: the single
configuration code 4 is mapped to one diagonal segment template. -/
def sampleLinesMap : OffsetMap := fun c =>
  if c = 4 then some (.templates [[(0, -1/2), (-1/2, 0)]]) else none

/-- Sample iso-bands offset table for concrete witnesses: empty. -/
def sampleBandsMap : OffsetMap := fun _ => none

/-- Concrete getVertices options with an unsupported contour type 3. -/
def sampleVertOpts3 : GetVerticesOpts :=
  { gridOrigin := (0, 0), cellSize := (1, 1), x := 0, y := 0, code := 0,
    meanCode := 0, type := some 3 }

/-- Claim C8 witness: the theorem evaluated at the concrete contour type 3. -/
theorem claim_C8_wit :
    getVertices sampleLinesMap sampleBandsMap sampleVertOpts3 =
      .error .unsupportedType :=
  claim_C8_thm sampleLinesMap sampleBandsMap sampleVertOpts3 3 rfl
    (by decide) (by decide)

/-- Claim C10: when the type option is omitted in a call to getVertices (and
the iso-lines table maps the given code to a template list), the call does
not fail: it defaults to ISO_LINES and produces iso-line segment geometry
for the given code. -/
theorem claim_C10_thm (isolinesMap isobandsMap : OffsetMap)
    (o : GetVerticesOpts) (ts : List (List (ℚ × ℚ))) (htype : o.type = none)
    (hmap : isolinesMap o.code = some (.templates ts)) (hx : -1 ≤ o.x)
    (hy : -1 ≤ o.y) :
    ∃ pts : List Point3,
      getVertices isolinesMap isobandsMap o = .ok (.lines pts) := by
  refine ⟨ts.flatMap (fun xyOffsets => xyOffsets.map (fun offset =>
    (o.gridOrigin.1 + ((o.x : ℚ) + 1) * o.cellSize.1 +
      offset.1 * o.cellSize.1,
     o.gridOrigin.2 + ((o.y : ℚ) + 1) * o.cellSize.2 +
      offset.2 * o.cellSize.2,
     mergedZIndex o * Z_OFFSET * mergedZOffsetScale o))), ?_⟩
  simp only [getVertices, resolveOffsets, htype, Option.getD_none, hmap,
    if_true, ite_true]
  rw [if_neg (not_not_intro hx), if_neg (not_not_intro hy)]

/-- Concrete getVertices options with the type option omitted. -/
def sampleVertOptsNone : GetVerticesOpts :=
  { gridOrigin := (10, 20), cellSize := (2, 3), x := 0, y := 0, code := 4,
    meanCode := 0 }

/-- Claim C10 witness: the theorem evaluated at a concrete call with the
type option omitted and code 4. -/
theorem claim_C10_wit :
    ∃ pts : List Point3,
      getVertices sampleLinesMap sampleBandsMap sampleVertOptsNone =
        .ok (.lines pts) :=
  claim_C10_thm sampleLinesMap sampleBandsMap sampleVertOptsNone
    [[(0, -1/2), (-1/2, 0)]] rfl (by simp [sampleLinesMap, sampleVertOptsNone])
    (by decide) (by decide)

/-- Claim C7: for every successful call to getVertices, every emitted world
point is obtained from a fractional offset (ox, oy) of the selected offset
templates as (refX + ox*cellSize.x, refY + oy*cellSize.y, vz), where
refX = origin.x + (x+1)*cellSize.x, refY = origin.y + (y+1)*cellSize.y and
vz = zIndex * Z_OFFSET * zOffsetScale, with the defaults zIndex = 0 and
zOffsetScale = 1 when no layer depth is supplied. -/
theorem claim_C7_thm (isolinesMap isobandsMap : OffsetMap)
    (o : GetVerticesOpts) (g : Geometry)
    (hg : getVertices isolinesMap isobandsMap o = .ok g) :
    (o.thresholdData = none →
      mergedZIndex o = 0 ∧ mergedZOffsetScale o = 1) ∧
    ∀ p ∈ g.points, ∃ ts : List (List (ℚ × ℚ)),
      resolveOffsets isolinesMap isobandsMap o = .ok ts ∧
      ∃ tmpl ∈ ts, ∃ offset ∈ tmpl,
        p = (o.gridOrigin.1 + ((o.x : ℚ) + 1) * o.cellSize.1 +
              offset.1 * o.cellSize.1,
             o.gridOrigin.2 + ((o.y : ℚ) + 1) * o.cellSize.2 +
              offset.2 * o.cellSize.2,
             mergedZIndex o * Z_OFFSET * mergedZOffsetScale o) := by
  constructor
  · intro hnone
    simp [mergedZIndex, mergedZOffsetScale, hnone]
  · intro p hp
    simp only [getVertices] at hg
    cases hres : resolveOffsets isolinesMap isobandsMap o with
    | error e =>
      rw [hres] at hg
      simp at hg
    | ok ts =>
      rw [hres] at hg
      dsimp only at hg
      refine ⟨ts, rfl, ?_⟩
      split_ifs at hg with hx hy ht1 ht2
      · injection hg with hg
        subst hg
        simp only [Geometry.points, List.mem_flatMap, List.mem_map] at hp
        obtain ⟨tmpl, htmpl, offset, hoff, hpe⟩ := hp
        exact ⟨tmpl, htmpl, offset, hoff, hpe.symm⟩
      · injection hg with hg
        subst hg
        simp only [Geometry.points, List.mem_flatten, List.mem_map] at hp
        obtain ⟨ys, ⟨tmpl, htmpl, hys⟩, hpy⟩ := hp
        subst hys
        obtain ⟨offset, hoff, hpe⟩ := List.mem_map.mp hpy
        exact ⟨tmpl, htmpl, offset, hoff, hpe.symm⟩

/-- Concrete getVertices options for the claim C7 witness. -/
def sampleVertOpts7 : GetVerticesOpts :=
  { gridOrigin := (10, 20), cellSize := (2, 3), x := 0, y := 0, code := 4,
    meanCode := 0, type := some CONTOUR_TYPE.ISO_LINES }

/-- The geometry getVertices emits for sampleVertOpts7 under
sampleLinesMap. -/
def sampleGeometry7 : Geometry := .lines [(12, 43 / 2, 0), (11, 23, 0)]

/-- Claim C7 witness: the theorem evaluated at a concrete successful call. -/
theorem claim_C7_wit :
    getVertices sampleLinesMap sampleBandsMap sampleVertOpts7 =
      .ok sampleGeometry7 ∧
    ((sampleVertOpts7.thresholdData = none →
      mergedZIndex sampleVertOpts7 = 0 ∧ mergedZOffsetScale sampleVertOpts7 = 1) ∧
    ∀ p ∈ sampleGeometry7.points, ∃ ts : List (List (ℚ × ℚ)),
      resolveOffsets sampleLinesMap sampleBandsMap sampleVertOpts7 = .ok ts ∧
      ∃ tmpl ∈ ts, ∃ offset ∈ tmpl,
        p = (sampleVertOpts7.gridOrigin.1 +
              ((sampleVertOpts7.x : ℚ) + 1) * sampleVertOpts7.cellSize.1 +
              offset.1 * sampleVertOpts7.cellSize.1,
             sampleVertOpts7.gridOrigin.2 +
              ((sampleVertOpts7.y : ℚ) + 1) * sampleVertOpts7.cellSize.2 +
              offset.2 * sampleVertOpts7.cellSize.2,
             mergedZIndex sampleVertOpts7 * Z_OFFSET *
              mergedZOffsetScale sampleVertOpts7)) := by
  have hEval : getVertices sampleLinesMap sampleBandsMap sampleVertOpts7 =
      .ok sampleGeometry7 := by
    simp only [getVertices, resolveOffsets, sampleVertOpts7, sampleLinesMap,
      sampleGeometry7, mergedZIndex, mergedZOffsetScale, Z_OFFSET,
      Option.getD_some, if_true, ite_true]
    norm_num
  exact ⟨hEval, claim_C7_thm sampleLinesMap sampleBandsMap sampleVertOpts7
    sampleGeometry7 hEval⟩

/-- Claim C9: when the legacy option thresholdValue is present and truthy it
silently overrides the threshold option for the whole classification, and a
thresholdValue of 0 (falsy) is ignored so that the threshold option is used
instead: a caller cannot pass the threshold 0 through the legacy
parameter. -/
theorem claim_C9_thm (o : GetCodeOpts) (v : JSNum) :
    (jsTruthy v = true →
      getCode { o with thresholdValue := some v } =
        getCode { o with threshold := .num v, thresholdValue := none }) ∧
    getCode { o with thresholdValue := some (.finite 0) } =
      getCode { o with thresholdValue := none } := by
  constructor
  · intro htr
    simp [getCode, effectiveThreshold, htr]
  · simp [getCode, effectiveThreshold, jsTruthy]

/-- Concrete getCode options for the claim C9 witness. -/
def sample9Opts : GetCodeOpts :=
  { cellWeights := fun _ => 0, x := -1, y := -1, width := 2, height := 2,
    threshold := .num (.finite 1) }

/-- Claim C9 witness: the theorem evaluated at a concrete record, with the
truthy legacy value 7 and the falsy legacy value 0. -/
theorem claim_C9_wit :
    (getCode { sample9Opts with thresholdValue := some (.finite 7) } =
      getCode { sample9Opts with threshold := .num (.finite 7),
                                 thresholdValue := none }) ∧
    getCode { sample9Opts with thresholdValue := some (.finite 0) } =
      getCode { sample9Opts with thresholdValue := none } :=
  ⟨(claim_C9_thm sample9Opts (.finite 7)).1 (by decide),
   (claim_C9_thm sample9Opts (.finite 0)).2⟩
